import Mathlib

/-!
Shallow embedding of the iterative DNS resolver (package `main` of the
repository): the root-server table, query construction (`queryDNS`),
referral extraction (`getNextServers`), nameserver resolution
(`resolveNS`) and the lookup driver loop (`recursiveLookup`), modelled
as a fuel-indexed step function over an explicit lookup state.
Network transport and the host system resolver are environment
parameters (`Env`): the rest is translated directly from the source.
-/

namespace DnsResolver

/-- DNS resource-record types that the source code dispatches on
(`dnsmessage.TypeA`, `TypeAAAA`, `TypeNS`), plus representatives of the
other types it ignores. -/
inductive RType
  | A
  | AAAA
  | NS
  | CNAME
  | TXT
  deriving DecidableEq

/-- A resource record: owner name, type, and the payload the code reads
from the body (the NS hostname for NS records, the textual address for
A and AAAA records). -/
structure RR where
  name : String
  type : RType
  data : String
  deriving DecidableEq

/-- A decoded DNS message, as consumed by `recursiveLookup` and
`getNextServers`: the authoritative-answer flag and the three
resource-record sections. -/
structure Message where
  authoritative : Bool
  answers : List RR
  authorities : List RR
  additionals : List RR
  deriving DecidableEq

/-- One question of a query message. -/
structure Question where
  name : String
  qtype : RType
  qclass : Nat
  deriving DecidableEq

/-- The query header fields the code sets plus the question section. -/
structure Query where
  id : Nat
  recursionDesired : Bool
  questions : List Question
  deriving DecidableEq

/-- `dnsmessage.ClassINET`. -/
def classINET : Nat := 1

/-- The query message built inside `queryDNS`: header `ID: 1`,
`RecursionDesired: false`, one question for the domain with `TypeA`
and `ClassINET`. -/
def mkQuery (domain : String) : Query :=
  { id := 1
    recursionDesired := false
    questions := [{ name := domain, qtype := RType.A, qclass := classINET }] }

/-- The package-level `rootServers` table, in source order. -/
def rootServers : List (String × String) :=
  [ ("a.root-servers.net", "198.41.0.4")
  , ("b.root-servers.net", "192.228.79.201")
  , ("c.root-servers.net", "192.33.4.12")
  , ("d.root-servers.net", "128.8.10.90")
  , ("e.root-servers.net", "192.203.230.10")
  , ("f.root-servers.net", "192.5.5.241")
  , ("g.root-servers.net", "192.112.36.4")
  , ("h.root-servers.net", "128.63.2.53")
  , ("i.root-servers.net", "192.36.148.17")
  , ("j.root-servers.net", "192.58.128.30")
  , ("k.root-servers.net", "193.0.14.129")
  , ("l.root-servers.net", "199.7.83.42")
  , ("m.root-servers.net", "202.12.27.33")
  ]

/-- `pickNewRootServer`: return some root server whose IP is not in the
tried set, or `("", "")` when all are tried.  Go iterates the map in an
unspecified order; the embedding fixes source-listing order, which is
one admissible refinement of that order. -/
def pickNewRootServer (roots : List (String × String)) (tried : List String) :
    String × String :=
  match roots.find? (fun p => !(tried.contains p.2)) with
  | some p => p
  | none => ("", "")

/-- `getNextServers`: the nameserver hostnames of the NS-type records of
the authority section, in section order.  (The function also builds a
glue map from the additional section, but only prints it; the returned
list carries no addresses.) -/
def getNextServers (res : Message) : List String :=
  (res.authorities.filter (fun rr => rr.type == RType.NS)).map (fun rr => rr.data)

/-- The glue map `resolvedIPs` computed inside `getNextServers` from
A-type additional records: hostname paired with its glue address.  Used
only for the diagnostic printout in the source. -/
def glueIPs (res : Message) : List (String × String) :=
  (res.additionals.filter (fun rr => rr.type == RType.A)).map
    (fun rr => (rr.name, rr.data))

/-- Whether a delegated nameserver has a glue address in the message's
additional section. -/
def hasGlue (res : Message) (ns : String) : Bool :=
  (glueIPs res).any (fun p => p.1 == ns)

/-- `strings.TrimSuffix(ns, ".")`: drop one trailing dot if present,
phrased over the character list so that it evaluates by reduction. -/
def trimDot (s : String) : String :=
  if s.data.getLast? = some '.' then String.mk s.data.dropLast else s

/-- `resolveNS`: walk the candidate list in order; on each candidate
call the host resolver (`net.LookupHost` on the dot-trimmed name); on
the first call that returns a non-empty address list, return that
candidate with the first address; return `("", "")` when no candidate
resolves.  The host resolver is the oracle `lookup`, where `none`
models a lookup error. -/
def resolveNS (lookup : String → Option (List String)) :
    List String → String × String
  | [] => ("", "")
  | ns :: rest =>
    match lookup (trimDot ns) with
    | some (ip :: _) => (ns, ip)
    | _ => resolveNS lookup rest

/-- The sequence of candidate names on which `resolveNS` invokes the
host resolver: every candidate up to and including the first successful
one (or all of them when none succeeds). -/
def resolveNSCalls (lookup : String → Option (List String)) :
    List String → List String
  | [] => []
  | ns :: rest =>
    match lookup (trimDot ns) with
    | some (_ :: _) => [ns]
    | _ => ns :: resolveNSCalls lookup rest

/-- Whether the host lookup of a candidate succeeds in the sense of the
source's test `err == nil && len(ip) > 0`. -/
def lookupOk (lookup : String → Option (List String)) (ns : String) : Bool :=
  match lookup (trimDot ns) with
  | some (_ :: _) => true
  | _ => false

/-- The first address the host lookup of a candidate returned (only
meaningful when `lookupOk`). -/
def lookupFirst (lookup : String → Option (List String)) (ns : String) : String :=
  match lookup (trimDot ns) with
  | some (ip :: _) => ip
  | _ => ""

/-- The external dependencies of one lookup: the UDP transport (send a
query message to a server address, receive a decoded response or a
transport/decoding error) and the host system resolver used by
`resolveNS`. -/
structure Env where
  transport : Query → String → Except Unit Message
  lookup : String → Option (List String)

/-- `queryDNS`: build the fixed-shape query for the domain and exchange
it with the server over the transport. -/
def queryDNS (transport : Query → String → Except Unit Message)
    (domain server : String) : Except Unit Message :=
  transport (mkQuery domain) server

/-- The addresses printed by the authoritative branch of
`recursiveLookup`: the data of every A-type and every AAAA-type record
of the answer section, in section order. -/
def emittedAddrs (res : Message) : List String :=
  res.answers.filterMap (fun rr =>
    if rr.type == RType.A || rr.type == RType.AAAA then some rr.data else none)

/-- The mutable state of `recursiveLookup`: the root-server table it
reads (threaded explicitly to state its immutability), the current
server, and the tried-address set (`triedServers`), kept as a
duplicate-free list. -/
structure LState where
  roots : List (String × String)
  serverName : String
  serverIP : String
  tried : List String
  deriving DecidableEq

/-- Set insertion into the tried list, mirroring
`triedServers[serverIP] = true`. -/
def addTried (tried : List String) (ip : String) : List String :=
  if tried.contains ip then tried else tried ++ [ip]

/-- The terminal outcomes of `recursiveLookup`: an authoritative answer
with the emitted addresses, root-server exhaustion ("No more root
servers available"), an empty referral ("No more name servers found"),
and nameserver-resolution failure ("Failed to resolve next NS IP"). -/
inductive Outcome
  | authoritative (addrs : List String)
  | rootsExhausted
  | noNameServers
  | resolveFailed
  deriving DecidableEq

/-- Result of one loop iteration: terminate with an outcome, or
continue with a new state. -/
inductive StepRes
  | done (o : Outcome)
  | next (s : LState)
  deriving DecidableEq

/-- One iteration of the `for` loop of `recursiveLookup`: mark the
current server tried, query it; on error fall back to an untried root
server (or stop exhausted); on an authoritative response stop with the
answer addresses; otherwise extract the referral (stop if empty),
resolve it (stop if resolution fails) and advance to the chosen
server. -/
def stepLookup (env : Env) (domain : String) (s : LState) : StepRes :=
  match queryDNS env.transport domain s.serverIP with
  | Except.error _ =>
    if (pickNewRootServer s.roots (addTried s.tried s.serverIP)).2 = "" then
      StepRes.done Outcome.rootsExhausted
    else
      StepRes.next
        { roots := s.roots
          serverName := (pickNewRootServer s.roots (addTried s.tried s.serverIP)).1
          serverIP := (pickNewRootServer s.roots (addTried s.tried s.serverIP)).2
          tried := addTried s.tried s.serverIP }
  | Except.ok res =>
    if res.authoritative then StepRes.done (Outcome.authoritative (emittedAddrs res))
    else if getNextServers res = [] then StepRes.done Outcome.noNameServers
    else if (resolveNS env.lookup (getNextServers res)).2 = "" then
      StepRes.done Outcome.resolveFailed
    else
      StepRes.next
        { roots := s.roots
          serverName := (resolveNS env.lookup (getNextServers res)).1
          serverIP := (resolveNS env.lookup (getNextServers res)).2
          tried := addTried s.tried s.serverIP }

/-- Fuel-indexed run of the lookup loop.  Returns the outcome (`none`
when the fuel ran out before the loop terminated) and the trace of the
states at which iterations ran; each traced state issues exactly one
query, to its `serverIP`. -/
def runLookup (env : Env) (domain : String) : Nat → LState → Option Outcome × List LState
  | 0, _ => (none, [])
  | Nat.succ n, s =>
    match stepLookup env domain s with
    | StepRes.done o => (some o, [s])
    | StepRes.next s2 =>
      ((runLookup env domain n s2).1, s :: (runLookup env domain n s2).2)

/-- The state at the start of `recursiveLookup`: the global table, the
chosen bootstrap server, and an empty tried set. -/
def initState (name ip : String) : LState :=
  { roots := rootServers, serverName := name, serverIP := ip, tried := [] }

/-- An environment in which every transport exchange fails and every
host lookup errors. -/
def envFail : Env :=
  { transport := fun _ _ => Except.error ()
    lookup := fun _ => none }

/-- A referral naming two delegated nameservers, the first with a glue
A record in the additional section and the second without. -/
def msgGlueMixed : Message :=
  { authoritative := false
    answers := []
    authorities :=
      [ { name := "example.com.", type := RType.NS, data := "ns1.example.com." }
      , { name := "example.com.", type := RType.NS, data := "ns2.example.com." } ]
    additionals :=
      [ { name := "ns1.example.com.", type := RType.A, data := "10.0.0.1" } ] }

/-- A host resolver that resolves only `ns2.example.com`. -/
def lookupNs2Only : String → Option (List String) :=
  fun s => if s = "ns2.example.com" then some ["10.0.0.2"] else none

/-- A referral that repeats forever: the single delegated nameserver
resolves back to the address of the server that issued the referral. -/
def referralLoopMsg : Message :=
  { authoritative := false
    answers := []
    authorities := [ { name := "com.", type := RType.NS, data := "ns1.example.com." } ]
    additionals := [] }

/-- An environment whose every query succeeds with the repeating
referral `referralLoopMsg`, whose delegated nameserver resolves to
`198.41.0.4`. -/
def envLoop : Env :=
  { transport := fun _ _ => Except.ok referralLoopMsg
    lookup := fun s => if s = "ns1.example.com" then some ["198.41.0.4"] else none }

/-- The fixed point the lookup loop reaches under `envLoop`. -/
def loopState : LState :=
  { roots := rootServers
    serverName := "ns1.example.com."
    serverIP := "198.41.0.4"
    tried := ["198.41.0.4"] }

/-- An authoritative response carrying one A answer. -/
def authMsg : Message :=
  { authoritative := true
    answers := [ { name := "example.com.", type := RType.A, data := "93.184.216.34" } ]
    authorities := []
    additionals := [] }

/-- An environment whose every query succeeds with `authMsg`. -/
def envAuth : Env :=
  { transport := fun _ _ => Except.ok authMsg
    lookup := fun _ => none }

/-- A non-authoritative response whose authority section carries no
NS-type record. -/
def noNsRefMsg : Message :=
  { authoritative := false
    answers := []
    authorities := [ { name := "example.com.", type := RType.TXT, data := "not a delegation" } ]
    additionals := [] }

/-- An environment whose every query succeeds with `noNsRefMsg`. -/
def envEmptyRef : Env :=
  { transport := fun _ _ => Except.ok noNsRefMsg
    lookup := fun _ => none }

/-- An authoritative response whose answer section holds only records
that are neither A nor AAAA. -/
def txtOnlyMsg : Message :=
  { authoritative := true
    answers :=
      [ { name := "example.com.", type := RType.TXT, data := "v=spf1 -all" }
      , { name := "example.com.", type := RType.CNAME, data := "alias.example.com." } ]
    authorities := []
    additionals := [] }

/-- An environment whose every query succeeds with `txtOnlyMsg`. -/
def envTxtOnly : Env :=
  { transport := fun _ _ => Except.ok txtOnlyMsg
    lookup := fun _ => none }

/-- When the lookup loop continues, the new state keeps the root table
and its tried set is the old one with the current server's address
inserted. -/
theorem stepLookup_next_fields (env : Env) (domain : String) (s s2 : LState)
    (h : stepLookup env domain s = StepRes.next s2) :
    s2.roots = s.roots ∧ s2.tried = addTried s.tried s.serverIP := by
  unfold stepLookup at h
  split at h
  · split at h
    · exact absurd h (by simp)
    · cases h
      exact ⟨rfl, rfl⟩
  · split at h
    · exact absurd h (by simp)
    · split at h
      · exact absurd h (by simp)
      · split at h
        · exact absurd h (by simp)
        · cases h
          exact ⟨rfl, rfl⟩

/-- The loop's behaviour in an all-failures environment agrees with the
canonical `envFail`. -/
theorem runLookup_allFail_congr (env : Env)
    (hfail : ∀ q sv, env.transport q sv = Except.error ()) (domain : String) :
    ∀ (n : Nat) (s : LState),
      runLookup env domain n s = runLookup envFail domain n s := by
  intro n
  induction n with
  | zero => intro s; rfl
  | succ n ih =>
    intro s
    have hstep : stepLookup env domain s = stepLookup envFail domain s := by
      unfold stepLookup queryDNS
      rw [hfail]
      rfl
    simp only [runLookup, hstep]
    cases hs : stepLookup envFail domain s with
    | done o => simp only [hs]
    | next s2 => simp only [hs, ih s2]

/-- In `envFail` the looked-up domain is irrelevant to the run. -/
theorem runLookup_envFail_domain (d d2 : String) :
    ∀ (n : Nat) (s : LState),
      runLookup envFail d n s = runLookup envFail d2 n s := by
  intro n
  induction n with
  | zero => intro s; rfl
  | succ n ih =>
    intro s
    have hstep : stepLookup envFail d s = stepLookup envFail d2 s := rfl
    simp only [runLookup, hstep]
    cases hs : stepLookup envFail d2 s with
    | done o => simp only [hs]
    | next s2 => simp only [hs, ih s2]

/-- Once the loop has terminated within some fuel, extra fuel changes
nothing: the run result is stable. -/
theorem runLookup_stable (env : Env) (domain : String) :
    ∀ (n m : Nat) (s : LState), n ≤ m →
      ((runLookup env domain n s).1).isSome = true →
      runLookup env domain m s = runLookup env domain n s := by
  intro n
  induction n with
  | zero =>
    intro m s _ hsome
    exact absurd hsome (by simp [runLookup])
  | succ n ih =>
    intro m s hle hsome
    cases m with
    | zero => exact absurd hle (by omega)
    | succ m =>
      simp only [runLookup]
      cases hs : stepLookup env domain s with
      | done o => simp only [hs]
      | next s2 =>
        have hsome2 : ((runLookup env domain n s2).1).isSome = true := by
          simp only [runLookup, hs] at hsome
          exact hsome
        simp only [hs, ih m s2 (by omega) hsome2]

/-- In the all-failures environment, starting from any root server the
loop reaches `rootsExhausted` within `|rootServers| + 1` fuel, after
contacting each of the thirteen distinct root addresses exactly once. -/
theorem runLookup_envFail_base : ∀ p ∈ rootServers,
    (runLookup envFail "example.com." (rootServers.length + 1) (initState p.1 p.2)).1
        = some Outcome.rootsExhausted ∧
    ((runLookup envFail "example.com." (rootServers.length + 1)
        (initState p.1 p.2)).2.map LState.serverIP).length = rootServers.length ∧
    ((runLookup envFail "example.com." (rootServers.length + 1)
        (initState p.1 p.2)).2.map LState.serverIP).Nodup ∧
    ∀ ip ∈ (runLookup envFail "example.com." (rootServers.length + 1)
        (initState p.1 p.2)).2.map LState.serverIP, ip ∈ rootServers.map Prod.snd := by
  decide

/-- In an all-failures environment a lookup started at any root server
runs exactly like the canonical `envFail` lookup for `example.com.`
with fuel `|rootServers| + 1`. -/
theorem runLookup_allFail_eval (env : Env)
    (hfail : ∀ q sv, env.transport q sv = Except.error ()) (domain : String)
    (startName startIP : String) (hstart : (startName, startIP) ∈ rootServers)
    (fuel : Nat) (hfuel : rootServers.length + 1 ≤ fuel) :
    runLookup env domain fuel (initState startName startIP)
      = runLookup envFail "example.com." (rootServers.length + 1)
          (initState startName startIP) := by
  have hbase1 := (runLookup_envFail_base ⟨startName, startIP⟩ hstart).1
  have hsome : ((runLookup envFail "example.com." (rootServers.length + 1)
      (initState startName startIP)).1).isSome = true := by
    rw [show (runLookup envFail "example.com." (rootServers.length + 1)
        (initState startName startIP)).1 = some Outcome.rootsExhausted from hbase1]
    rfl
  calc runLookup env domain fuel (initState startName startIP)
      = runLookup envFail domain fuel (initState startName startIP) :=
        runLookup_allFail_congr env hfail domain fuel _
    _ = runLookup envFail "example.com." fuel (initState startName startIP) :=
        runLookup_envFail_domain domain "example.com." fuel _
    _ = runLookup envFail "example.com." (rootServers.length + 1)
          (initState startName startIP) :=
        runLookup_stable envFail "example.com." (rootServers.length + 1) fuel _ hfuel hsome

/-- Every state the lookup loop runs an iteration at carries the same
root-server table as the initial state. -/
theorem runLookup_roots_inv (env : Env) (domain : String) :
    ∀ (n : Nat) (s st : LState),
      st ∈ (runLookup env domain n s).2 → st.roots = s.roots := by
  intro n
  induction n with
  | zero => intro s st h; simp [runLookup] at h
  | succ n ih =>
    intro s st h
    cases hs : stepLookup env domain s with
    | done o =>
      simp only [runLookup, hs, List.mem_singleton] at h
      rw [h]
    | next s2 =>
      simp only [runLookup, hs, List.mem_cons] at h
      rcases h with h | h
      · rw [h]
      · rw [ih s2 st h, (stepLookup_next_fields env domain s s2 hs).1]

/-- A successful candidate stops the `resolveNS` scan: the candidate is
returned with the first address of its lookup. -/
theorem resolveNS_cons_ok (lookup : String → Option (List String)) (ns : String)
    (l : List String) (h : lookupOk lookup ns = true) :
    resolveNS lookup (ns :: l) = (ns, lookupFirst lookup ns) := by
  cases hl : lookup (trimDot ns) with
  | none => exact Bool.noConfusion (by simpa only [lookupOk, hl] using h)
  | some ips =>
    cases ips with
    | nil => exact Bool.noConfusion (by simpa only [lookupOk, hl] using h)
    | cons ip t => simp only [resolveNS, lookupFirst, hl]

/-- A failing candidate is skipped by the `resolveNS` scan. -/
theorem resolveNS_cons_fail (lookup : String → Option (List String)) (ns : String)
    (l : List String) (h : lookupOk lookup ns = false) :
    resolveNS lookup (ns :: l) = resolveNS lookup l := by
  cases hl : lookup (trimDot ns) with
  | none => simp only [resolveNS, hl]
  | some ips =>
    cases ips with
    | nil => simp only [resolveNS, hl]
    | cons ip t => exact Bool.noConfusion (by simpa only [lookupOk, hl] using h)

/-- A successful candidate is the last one the host resolver is invoked
on. -/
theorem resolveNSCalls_cons_ok (lookup : String → Option (List String)) (ns : String)
    (l : List String) (h : lookupOk lookup ns = true) :
    resolveNSCalls lookup (ns :: l) = [ns] := by
  cases hl : lookup (trimDot ns) with
  | none => exact Bool.noConfusion (by simpa only [lookupOk, hl] using h)
  | some ips =>
    cases ips with
    | nil => exact Bool.noConfusion (by simpa only [lookupOk, hl] using h)
    | cons ip t => simp only [resolveNSCalls, hl]

/-- A failing candidate still receives a host-resolver invocation before
the scan moves on. -/
theorem resolveNSCalls_cons_fail (lookup : String → Option (List String)) (ns : String)
    (l : List String) (h : lookupOk lookup ns = false) :
    resolveNSCalls lookup (ns :: l) = ns :: resolveNSCalls lookup l := by
  cases hl : lookup (trimDot ns) with
  | none => simp only [resolveNSCalls, hl]
  | some ips =>
    cases ips with
    | nil => simp only [resolveNSCalls, hl]
    | cons ip t => exact Bool.noConfusion (by simpa only [lookupOk, hl] using h)

/-- `resolveNS` returns the failure sentinel exactly when every
candidate's host lookup fails, provided the host resolver never reports
the empty string as an address. -/
theorem resolveNS_eq_none_iff (lookup : String → Option (List String))
    (hwf : ∀ ns l, lookup ns = some l → "" ∉ l) :
    ∀ servers : List String,
      (resolveNS lookup servers = ("", "") ↔
        ∀ ns ∈ servers, lookupOk lookup ns = false) := by
  intro servers
  induction servers with
  | nil => simp [resolveNS]
  | cons ns l ih =>
    cases hok : lookupOk lookup ns with
    | false =>
      rw [resolveNS_cons_fail lookup ns l hok, ih, List.forall_mem_cons]
      simp [hok]
    | true =>
      rw [resolveNS_cons_ok lookup ns l hok]
      constructor
      · intro h
        exfalso
        have h2 : lookupFirst lookup ns = "" := congrArg Prod.snd h
        cases hl : lookup (trimDot ns) with
        | none => exact Bool.noConfusion (by simpa only [lookupOk, hl] using hok)
        | some ips =>
          cases ips with
          | nil => exact Bool.noConfusion (by simpa only [lookupOk, hl] using hok)
          | cons ip t =>
            have hne : "" ∉ ip :: t := hwf (trimDot ns) (ip :: t) hl
            simp only [lookupFirst, hl] at h2
            exact hne (by rw [h2]; exact List.mem_cons_self _ _)
      · intro h
        exact absurd (h ns (List.mem_cons_self ns l)) (by simp [hok])

/-- Under `envLoop` the state `loopState` is a fixed point of the
lookup loop. -/
theorem stepLookup_envLoop_fix :
    stepLookup envLoop "example.com." loopState = StepRes.next loopState := by
  decide

/-- Under `envLoop` the loop never terminates from `loopState`. -/
theorem runLookup_envLoop_none :
    ∀ n : Nat, (runLookup envLoop "example.com." n loopState).1 = none := by
  intro n
  induction n with
  | zero => rfl
  | succ n ih =>
    simp only [runLookup, stepLookup_envLoop_fix]
    exact ih

/-- Under `envLoop` the loop never terminates from the bootstrap
state. -/
theorem runLookup_envLoop_start_none :
    ∀ n : Nat,
      (runLookup envLoop "example.com." n
        (initState "a.root-servers.net" "198.41.0.4")).1 = none := by
  intro n
  cases n with
  | zero => rfl
  | succ n =>
    have hstep : stepLookup envLoop "example.com."
        (initState "a.root-servers.net" "198.41.0.4") = StepRes.next loopState := by
      decide
    simp only [runLookup, hstep]
    exact runLookup_envLoop_none n

/-- Claim C1, counterexample.  The claim says that on a referral whose
candidates mix glued and unglued nameservers the Name-to-Address
Resolver selects a glued candidate and performs no host lookup on it.
In `msgGlueMixed` the first candidate `ns1.example.com.` carries glue
and the second `ns2.example.com.` does not; under a host resolver that
fails on the glued candidate, `resolveNS` nevertheless invokes a host
lookup on the glued candidate and selects the unglued one: glue never
reaches `resolveNS` at all. -/
theorem c1_glue_preference_counterexample :
    hasGlue msgGlueMixed "ns1.example.com." = true ∧
    hasGlue msgGlueMixed "ns2.example.com." = false ∧
    resolveNS lookupNs2Only (getNextServers msgGlueMixed) =
      ("ns2.example.com.", "10.0.0.2") ∧
    "ns1.example.com." ∈ resolveNSCalls lookupNs2Only (getNextServers msgGlueMixed) := by
  decide

/-- Claim C1, amended.  Glue addresses are never forwarded to the
Name-to-Address Resolver: the Referral Extractor's candidate list is
unaffected by the additional section (glue is computed only for the
diagnostic printout), and therefore the selection and the sequence of
host lookups performed by `resolveNS` are also unaffected by glue. -/
theorem c1_glue_not_forwarded (lookup : String → Option (List String))
    (msg : Message) (adds : List RR) :
    getNextServers { msg with additionals := adds } = getNextServers msg ∧
    resolveNS lookup (getNextServers { msg with additionals := adds }) =
      resolveNS lookup (getNextServers msg) ∧
    resolveNSCalls lookup (getNextServers { msg with additionals := adds }) =
      resolveNSCalls lookup (getNextServers msg) :=
  ⟨rfl, rfl, rfl⟩

/-- Claim C2, counterexample.  The claim says every lookup terminates
even on referral chains that revisit the same server names.  Under
`envLoop` — every query answers with the same referral, whose
nameserver resolves back to the queried address — the driver revisits
the same state forever: no amount of fuel makes `recursiveLookup`
reach a terminal outcome, so the loop runs forever. -/
theorem c2_termination_counterexample :
    ¬ ∃ fuel : Nat,
      ((runLookup envLoop "example.com." fuel
        (initState "a.root-servers.net" "198.41.0.4")).1).isSome = true := by
  rintro ⟨fuel, h⟩
  rw [runLookup_envLoop_start_none fuel] at h
  exact Bool.noConfusion h

/-- Claim C2, amended.  Termination is guaranteed only on the fallback
path: when the Transport Client fails on every exchange, a lookup
started at any root server reaches a terminal outcome within
`|rootServers| + 1` iterations.  The driver has no referral-depth
bound, so no `(number of root servers) x (maximum referral depth)`
bound exists for successful repeating referrals. -/
theorem c2_failfast_terminates (env : Env) (domain : String)
    (hfail : ∀ q sv, env.transport q sv = Except.error ())
    (startName startIP : String) (hstart : (startName, startIP) ∈ rootServers)
    (fuel : Nat) (hfuel : rootServers.length + 1 ≤ fuel) :
    ((runLookup env domain fuel (initState startName startIP)).1).isSome = true := by
  rw [runLookup_allFail_eval env hfail domain startName startIP hstart fuel hfuel]
  have hbase1 := (runLookup_envFail_base ⟨startName, startIP⟩ hstart).1
  rw [show (runLookup envFail "example.com." (rootServers.length + 1)
      (initState startName startIP)).1 = some Outcome.rootsExhausted from hbase1]
  rfl

/-- Claim C2, witness for the amended theorem. -/
theorem c2_failfast_terminates_witness :
    ((runLookup envFail "example.com." 14
      (initState "a.root-servers.net" "198.41.0.4")).1).isSome = true :=
  c2_failfast_terminates envFail "example.com." (fun _ _ => rfl)
    "a.root-servers.net" "198.41.0.4" (by decide) 14 (by decide)

/-- Claim C3, counterexample.  The claim says the tried set changes
only when the Transport Client fails.  Under `envLoop` the very first
query succeeds (it returns the referral `referralLoopMsg`), yet the
iteration adds the contacted address `198.41.0.4` to the tried set:
the set after the success iteration differs from the empty set before
it, and the added address belongs to a server whose query succeeded. -/
theorem c3_tried_on_success_counterexample :
    queryDNS envLoop.transport "example.com." "198.41.0.4" =
      Except.ok referralLoopMsg ∧
    stepLookup envLoop "example.com."
      (initState "a.root-servers.net" "198.41.0.4") = StepRes.next loopState ∧
    (initState "a.root-servers.net" "198.41.0.4").tried = [] ∧
    loopState.tried = ["198.41.0.4"] :=
  ⟨rfl, by decide, rfl, rfl⟩

/-- Claim C3, amended.  The tried set is updated at the start of every
iteration, before the query is sent and regardless of its outcome:
whenever an iteration continues, the new tried set is the old one with
the contacted server's address inserted. -/
theorem c3_tried_update (env : Env) (domain : String) (s s2 : LState)
    (h : stepLookup env domain s = StepRes.next s2) :
    s2.tried = addTried s.tried s.serverIP :=
  (stepLookup_next_fields env domain s s2 h).2

/-- Claim C3, witness for the amended theorem. -/
theorem c3_tried_update_witness :
    loopState.tried =
      addTried (initState "a.root-servers.net" "198.41.0.4").tried
        (initState "a.root-servers.net" "198.41.0.4").serverIP :=
  c3_tried_update envLoop "example.com."
    (initState "a.root-servers.net" "198.41.0.4") loopState (by decide)

/-- Claim C4.  When the Transport Client fails on every exchange, a
lookup started at any root server of the table terminates in the
root-exhaustion outcome, after exactly `|rootServers|` query attempts,
all directed at pairwise distinct root-server addresses. -/
theorem c4_fallback_exhaustion (env : Env) (domain : String)
    (hfail : ∀ q sv, env.transport q sv = Except.error ())
    (startName startIP : String) (hstart : (startName, startIP) ∈ rootServers)
    (fuel : Nat) (hfuel : rootServers.length + 1 ≤ fuel) :
    (runLookup env domain fuel (initState startName startIP)).1 =
      some Outcome.rootsExhausted ∧
    ((runLookup env domain fuel
        (initState startName startIP)).2.map LState.serverIP).length =
      rootServers.length ∧
    ((runLookup env domain fuel
        (initState startName startIP)).2.map LState.serverIP).Nodup ∧
    ∀ ip ∈ (runLookup env domain fuel
        (initState startName startIP)).2.map LState.serverIP,
      ip ∈ rootServers.map Prod.snd := by
  rw [runLookup_allFail_eval env hfail domain startName startIP hstart fuel hfuel]
  exact runLookup_envFail_base ⟨startName, startIP⟩ hstart

/-- Claim C4, witness. -/
theorem c4_fallback_exhaustion_witness :
    (runLookup envFail "example.com." 14
      (initState "a.root-servers.net" "198.41.0.4")).1 =
      some Outcome.rootsExhausted ∧
    ((runLookup envFail "example.com." 14
        (initState "a.root-servers.net" "198.41.0.4")).2.map LState.serverIP).length =
      rootServers.length ∧
    ((runLookup envFail "example.com." 14
        (initState "a.root-servers.net" "198.41.0.4")).2.map LState.serverIP).Nodup ∧
    ∀ ip ∈ (runLookup envFail "example.com." 14
        (initState "a.root-servers.net" "198.41.0.4")).2.map LState.serverIP,
      ip ∈ rootServers.map Prod.snd :=
  c4_fallback_exhaustion envFail "example.com." (fun _ _ => rfl)
    "a.root-servers.net" "198.41.0.4" (by decide) 14 (by decide)

/-- Claim C5.  A response with the authoritative flag set terminates
the lookup at once: the run ends in the authoritative outcome with a
trace of exactly one contacted server (so no further query is issued,
whatever the authority and additional sections hold), and the emitted
addresses contain the data of every A and every AAAA record of the
answer section. -/
theorem c5_authoritative_stop (env : Env) (domain : String) (s : LState)
    (res : Message)
    (hq : env.transport (mkQuery domain) s.serverIP = Except.ok res)
    (ha : res.authoritative = true) (fuel : Nat) :
    runLookup env domain (fuel + 1) s =
      (some (Outcome.authoritative (emittedAddrs res)), [s]) ∧
    ∀ rr ∈ res.answers, rr.type = RType.A ∨ rr.type = RType.AAAA →
      rr.data ∈ emittedAddrs res := by
  constructor
  · simp [runLookup, stepLookup, queryDNS, hq, ha]
  · intro rr hrr hty
    unfold emittedAddrs
    rw [List.mem_filterMap]
    exact ⟨rr, hrr, by rcases hty with h | h <;> simp [h]⟩

/-- Claim C5, witness: the scenario of an authoritative response with
the single A answer `93.184.216.34`. -/
theorem c5_authoritative_stop_witness :
    runLookup envAuth "example.com." (4 + 1)
      (initState "a.root-servers.net" "198.41.0.4") =
      (some (Outcome.authoritative (emittedAddrs authMsg)),
        [initState "a.root-servers.net" "198.41.0.4"]) ∧
    ∀ rr ∈ authMsg.answers, rr.type = RType.A ∨ rr.type = RType.AAAA →
      rr.data ∈ emittedAddrs authMsg :=
  c5_authoritative_stop envAuth "example.com."
    (initState "a.root-servers.net" "198.41.0.4") authMsg rfl rfl 4

/-- Claim C6.  A non-authoritative response whose authority section
carries no NS-type record makes the Referral Extractor return the
empty candidate list, and the driver then stops with the
no-nameservers outcome after that single query: the trace holds only
the current server, so no root-server fallback and no further query
happen. -/
theorem c6_empty_referral_stops (env : Env) (domain : String) (s : LState)
    (res : Message)
    (hq : env.transport (mkQuery domain) s.serverIP = Except.ok res)
    (hna : res.authoritative = false)
    (hns : ∀ rr ∈ res.authorities, rr.type ≠ RType.NS) (fuel : Nat) :
    getNextServers res = [] ∧
    runLookup env domain (fuel + 1) s = (some Outcome.noNameServers, [s]) := by
  have hempty : getNextServers res = [] := by
    unfold getNextServers
    have hfil : res.authorities.filter (fun rr => rr.type == RType.NS) = [] := by
      rw [List.filter_eq_nil_iff]
      intro a ha
      simpa using hns a ha
    rw [hfil, List.map_nil]
  refine ⟨hempty, ?_⟩
  simp [runLookup, stepLookup, queryDNS, hq, hna, hempty]

/-- Claim C6, witness: a referral whose authority section holds only a
TXT record. -/
theorem c6_empty_referral_stops_witness :
    getNextServers noNsRefMsg = [] ∧
    runLookup envEmptyRef "example.com." (2 + 1)
      (initState "a.root-servers.net" "198.41.0.4") =
      (some Outcome.noNameServers,
        [initState "a.root-servers.net" "198.41.0.4"]) :=
  c6_empty_referral_stops envEmptyRef "example.com."
    (initState "a.root-servers.net" "198.41.0.4") noNsRefMsg rfl rfl
    (by decide) 2

/-- Claim C7.  `resolveNS` returns the first candidate, in list order,
whose host lookup succeeds, paired with the first address that lookup
returned; it invokes the host resolver on exactly the candidates up to
and including that one; and — provided the host resolver never reports
an empty-string address — it returns the failure sentinel exactly when
every candidate's lookup fails. -/
theorem c7_first_success (lookup : String → Option (List String))
    (hwf : ∀ ns l, lookup ns = some l → "" ∉ l)
    (pre : List String) (c : String) (rest : List String)
    (hpre : ∀ ns ∈ pre, lookupOk lookup ns = false)
    (hc : lookupOk lookup c = true) (servers : List String) :
    resolveNS lookup (pre ++ c :: rest) = (c, lookupFirst lookup c) ∧
    resolveNSCalls lookup (pre ++ c :: rest) = pre ++ [c] ∧
    (resolveNS lookup servers = ("", "") ↔
      ∀ ns ∈ servers, lookupOk lookup ns = false) := by
  refine ⟨?_, ?_, resolveNS_eq_none_iff lookup hwf servers⟩
  · induction pre with
    | nil => simpa using resolveNS_cons_ok lookup c rest hc
    | cons p pre ih =>
      rw [List.cons_append,
        resolveNS_cons_fail lookup p (pre ++ c :: rest)
          (hpre p (List.mem_cons_self _ _))]
      exact ih (fun ns h => hpre ns (List.mem_cons_of_mem p h))
  · induction pre with
    | nil => simpa using resolveNSCalls_cons_ok lookup c rest hc
    | cons p pre ih =>
      rw [List.cons_append,
        resolveNSCalls_cons_fail lookup p (pre ++ c :: rest)
          (hpre p (List.mem_cons_self _ _)),
        ih (fun ns h => hpre ns (List.mem_cons_of_mem p h)), List.cons_append]

/-- Claim C7, witness: the first candidate fails host resolution, the
second succeeds and is returned with its first address; a third list
with no resolving candidate yields the failure sentinel. -/
theorem c7_first_success_witness :
    resolveNS lookupNs2Only (["ns1.example.com."] ++ "ns2.example.com." :: []) =
      ("ns2.example.com.", lookupFirst lookupNs2Only "ns2.example.com.") ∧
    resolveNSCalls lookupNs2Only (["ns1.example.com."] ++ "ns2.example.com." :: []) =
      ["ns1.example.com."] ++ ["ns2.example.com."] ∧
    (resolveNS lookupNs2Only ["ns3.example.com."] = ("", "") ↔
      ∀ ns ∈ ["ns3.example.com."], lookupOk lookupNs2Only ns = false) :=
  c7_first_success lookupNs2Only
    (by
      intro ns l h
      unfold lookupNs2Only at h
      split at h
      · cases h
        decide
      · exact Option.noConfusion h)
    ["ns1.example.com."] "ns2.example.com." [] (by decide) (by decide)
    ["ns3.example.com."]

/-- Claim C8.  Every query the resolver sends is the message built by
`mkQuery`: it carries exactly one question, of type A and class INET
for the looked-up domain, the constant transaction identifier 1 (the
same for every domain), and a cleared recursion-desired flag. -/
theorem c8_query_shape (transport : Query → String → Except Unit Message)
    (domain domain2 server : String) :
    queryDNS transport domain server = transport (mkQuery domain) server ∧
    (mkQuery domain).questions =
      [{ name := domain, qtype := RType.A, qclass := classINET }] ∧
    (mkQuery domain).questions.length = 1 ∧
    (mkQuery domain).id = 1 ∧
    (mkQuery domain).id = (mkQuery domain2).id ∧
    (mkQuery domain).recursionDesired = false :=
  ⟨rfl, rfl, rfl, rfl, rfl, rfl⟩

/-- Claim C9.  The root-server table is never mutated: every state at
which the lookup loop runs an iteration — whatever the environment
does, through bootstrap, fallback picking, querying and referral
handling — carries the same table as the initial state. -/
theorem c9_root_table_immutable (env : Env) (domain : String) (fuel : Nat)
    (s st : LState) (hst : st ∈ (runLookup env domain fuel s).2) :
    st.roots = s.roots :=
  runLookup_roots_inv env domain fuel s st hst

/-- Claim C9, witness: the state reached after following a referral
still carries the unchanged table. -/
theorem c9_root_table_immutable_witness :
    loopState.roots = (initState "a.root-servers.net" "198.41.0.4").roots :=
  c9_root_table_immutable envLoop "example.com." 2
    (initState "a.root-servers.net" "198.41.0.4") loopState (by decide)

/-- Claim C10.  In an authoritative response, answer records that are
neither A nor AAAA contribute nothing: the emitted address list is
empty when the answer section holds only such records (or none), and
the lookup still terminates in the authoritative outcome after that
single query, with no error. -/
theorem c10_other_answers_ignored (env : Env) (domain : String) (s : LState)
    (res : Message)
    (hq : env.transport (mkQuery domain) s.serverIP = Except.ok res)
    (ha : res.authoritative = true)
    (hnone : ∀ rr ∈ res.answers, rr.type ≠ RType.A ∧ rr.type ≠ RType.AAAA)
    (fuel : Nat) :
    emittedAddrs res = [] ∧
    runLookup env domain (fuel + 1) s =
      (some (Outcome.authoritative []), [s]) := by
  have hemit : emittedAddrs res = [] := by
    unfold emittedAddrs
    rw [List.filterMap_eq_nil_iff]
    intro rr hrr
    have h := hnone rr hrr
    simp [h.1, h.2]
  refine ⟨hemit, ?_⟩
  simp [runLookup, stepLookup, queryDNS, hq, ha, hemit]

/-- Claim C10, witness: an authoritative answer holding only TXT and
CNAME records. -/
theorem c10_other_answers_ignored_witness :
    emittedAddrs txtOnlyMsg = [] ∧
    runLookup envTxtOnly "example.com." (2 + 1)
      (initState "a.root-servers.net" "198.41.0.4") =
      (some (Outcome.authoritative []),
        [initState "a.root-servers.net" "198.41.0.4"]) :=
  c10_other_answers_ignored envTxtOnly "example.com."
    (initState "a.root-servers.net" "198.41.0.4") txtOnlyMsg rfl rfl
    (by decide) 2

end DnsResolver
